import Mathlib

/-
Verification development for the notes MCP server (src/index.ts).

The server keeps a single in-memory `Map<string, Note>` called `notes` and
handles three request families:
  * CallToolRequest   -> a `switch` over six tool names inside a try/catch;
  * ReadResourceRequest -> a `switch` over two resource URIs (throws on unknown);
  * GetPromptRequest  -> a `switch` over two prompt names (throws on unknown).

Embedding conventions, stated once:
  * The JS `Map` is modelled as an insertion-ordered association list
    `List (String × α)`.  `Map.set` on an existing key replaces the value in
    place (keeping the key's position), otherwise appends; `Map.delete`
    removes the entry; iteration (`Array.from(map.values())`) is the list
    order.  These match the ECMAScript Map iteration-order guarantees.
  * Clock instants (`Date.now()` in milliseconds, and `new Date()` taken at
    the same moment) are modelled as a single `Nat` parameter `now` passed
    to each handler invocation; `Date.now().toString()` is `toString now`
    and `new Date().toISOString()` is abstracted to the same instant `now`
    (the ISO rendering is a strictly monotone image of the instant, so
    ordering facts transfer).
  * `JSON.stringify` of a note or note array is abstracted to the note value
    or list of note values it serialises (the serialisation is injective on
    these values), carried in a `Payload` constructor.
  * The unchecked casts `args?.title as string` / `args?.content as string`
    can produce the JS value `undefined`, so a stored note's `title` and
    `content` are `Option String` with `none` playing `undefined`.
  * A thrown JS exception is `Except.error msg`; the try/catch around the
    tool switch maps it to the in-band `isError: true` envelope; the
    resource and prompt handlers have no catch, so their thrown errors stay
    `Except.error` (surfaced by the SDK as envelope-level failures).
  * JS string lowercasing / whitespace trimming are modelled on the ASCII
    fragment (`Char.toLower`, an explicit ASCII whitespace predicate).
-/

set_option autoImplicit false

namespace NotesServer

/-- A stored note, mirroring the `Note` interface of src/index.ts.  `title`
and `content` are `Option String` because the handler stores the unchecked
casts of possibly-absent arguments (`args?.title as string`), so the JS value
`undefined` (here `none`) can be stored. -/
structure Note where
  id : String
  title : Option String
  content : Option String
  tags : List String
  createdAt : Nat
  updatedAt : Nat
deriving DecidableEq, Repr

/-- The in-memory store `const notes: Map<string, Note>`, as an
insertion-ordered association list. -/
abbrev NoteMap := List (String × Note)

/-- JS `Map.get`: first (and, for genuine Map states, only) binding of the key. -/
def mapGet (k : String) : List (String × Note) → Option Note
  | [] => none
  | (k', v) :: rest => if k' = k then some v else mapGet k rest

/-- JS `Map.set`: replace in place when the key is present (keeping its
position in iteration order), otherwise append at the end. -/
def mapSet (k : String) (v : Note) : List (String × Note) → List (String × Note)
  | [] => [(k, v)]
  | (k', v') :: rest => if k' = k then (k, v) :: rest else (k', v') :: mapSet k v rest

/-- JS `Map.has`. -/
def mapHas (k : String) (m : List (String × Note)) : Bool :=
  (mapGet k m).isSome

/-- JS `Map.delete`: remove the binding of the key. -/
def mapDelete (k : String) : List (String × Note) → List (String × Note)
  | [] => []
  | (k', v) :: rest => if k' = k then rest else (k', v) :: mapDelete k rest

/-- JS `Array.from(notes.values())`: the notes in iteration order. -/
def mapValues (m : List (String × Note)) : List Note :=
  m.map (·.2)

/-- Representation invariant of a JS `Map`: keys are pairwise distinct.
Every state actually reachable through the handlers satisfies it. -/
abbrev keysNodup (m : List (String × Note)) : Prop :=
  (m.map (·.1)).Nodup

/-- The argument bag of a CallToolRequest, restricted to the parameter names
the six tools read.  Every field is optional, matching JS property access on
an arbitrary `args` object (`args?.x` is `undefined` when absent); an absent
`args` object altogether behaves as the all-`none` bag. -/
structure ToolArgs where
  id : Option String := none
  title : Option String := none
  content : Option String := none
  tags : Option (List String) := none
  tag : Option String := none
  query : Option String := none
deriving DecidableEq, Repr

/-- The text rendering of a possibly-undefined string inside a JS template
literal: `undefined` renders as "undefined". -/
def jsShow : Option String → String
  | some s => s
  | none => "undefined"

/-- Success payload of a tool call: either literal text or the value whose
`JSON.stringify` the source returns. -/
inductive Payload where
  | text (s : String)
  | note (n : Note)
  | list (ns : List Note)
deriving DecidableEq, Repr

/-- ASCII `toLowerCase` on one character. -/
def lowerChar (c : Char) : Char :=
  c.toLower

/-- JS `String.prototype.toLowerCase`, char list level (ASCII fragment). -/
def lowerList (l : List Char) : List Char :=
  l.map lowerChar

/-- Does `s` start with `q`?  (Helper for JS `String.prototype.includes`.) -/
def startsB : List Char → List Char → Bool
  | _, [] => true
  | [], _ :: _ => false
  | a :: s, b :: q => a == b && startsB s q

/-- JS `s.includes(q)` at char list level: `q` occurs contiguously in `s`.
The empty `q` is contained in every `s`. -/
def containsSub : List Char → List Char → Bool
  | [], q => q.isEmpty
  | a :: s, q => startsB (a :: s) q || containsSub s q

/-- The message of the TypeError raised by `undefined.toLowerCase()`. -/
def tlErrMsg : String :=
  "Cannot read properties of undefined (reading 'toLowerCase')"

/-- One step of the `search_notes` predicate
  `note.title.toLowerCase().includes(query) || note.content.toLowerCase().includes(query)`:
evaluates left to right with short-circuit `||`, throwing the TypeError when
it reaches an `undefined` field. -/
def noteMatches (q : List Char) (n : Note) : Except String Bool :=
  match n.title with
  | none => .error tlErrMsg
  | some t =>
    if containsSub (lowerList t.toList) q then .ok true
    else
      match n.content with
      | none => .error tlErrMsg
      | some c => .ok (containsSub (lowerList c.toList) q)

/-- JS `Array.prototype.filter` with the search predicate: the first thrown
TypeError aborts the whole filter. -/
def searchFilter (q : List Char) : List Note → Except String (List Note)
  | [] => .ok []
  | n :: rest =>
    match noteMatches q n with
    | .error e => .error e
    | .ok b =>
      match searchFilter q rest with
      | .error e => .error e
      | .ok res => .ok (if b then n :: res else res)

/-- The body of the `switch (name)` inside the CallToolRequest handler's
`try` block (src/index.ts lines 183-308).  Returns the state after the call
together with `.ok payload` for a normal return or `.error msg` for a thrown
`Error(msg)`.  No case mutates the store before a throw, so the state
accompanies both outcomes unchanged on the error paths. -/
def toolSwitch (name : String) (a : ToolArgs) (now : Nat) (s : NoteMap) :
    NoteMap × Except String Payload :=
  if name = "create_note" then
    let id := toString now
    let note : Note :=
      { id := id
        title := a.title
        content := a.content
        tags := a.tags.getD []
        createdAt := now
        updatedAt := now }
    (mapSet id note s, .ok (.text ("Note created successfully with ID: " ++ id)))
  else if name = "list_notes" then
    (s, .ok (.list (match a.tag with
      | some t => if t = "" then mapValues s
                  else (mapValues s).filter (fun n => n.tags.contains t)
      | none => mapValues s)))
  else if name = "get_note" then
    match (match a.id with | some k => mapGet k s | none => none) with
    | some n => (s, .ok (.note n))
    | none => (s, .error ("Note with ID " ++ jsShow a.id ++ " not found"))
  else if name = "update_note" then
    match (match a.id with | some k => mapGet k s | none => none) with
    | none => (s, .error ("Note with ID " ++ jsShow a.id ++ " not found"))
    | some n =>
      let k := (a.id).getD ""
      let n1 := match a.title with
        | some t => if t = "" then n else { n with title := some t }
        | none => n
      let n2 := match a.content with
        | some c => if c = "" then n1 else { n1 with content := some c }
        | none => n1
      let n3 := match a.tags with
        | some l => { n2 with tags := l }
        | none => n2
      let n4 := { n3 with updatedAt := now }
      (mapSet k n4 s, .ok (.text ("Note " ++ k ++ " updated successfully")))
  else if name = "delete_note" then
    match a.id with
    | none => (s, .error ("Note with ID undefined not found"))
    | some k =>
      if mapHas k s then
        (mapDelete k s, .ok (.text ("Note " ++ k ++ " deleted successfully")))
      else
        (s, .error ("Note with ID " ++ k ++ " not found"))
  else if name = "search_notes" then
    match a.query with
    | none => (s, .error tlErrMsg)
    | some q =>
      match searchFilter (lowerList q.toList) (mapValues s) with
      | .error e => (s, .error e)
      | .ok res => (s, .ok (.list res))
  else
    (s, .error ("Unknown tool: " ++ name))

/-- The normalized response envelope of a tool call: one payload plus the
`isError` flag. -/
structure Envelope where
  payload : Payload
  isError : Bool
deriving DecidableEq, Repr

/-- The whole CallToolRequest handler: the switch wrapped in try/catch.  A
thrown `Error(msg)` becomes the in-band envelope
`{ content: [{type: "text", text: "Error: " + msg}], isError: true }`. -/
def callTool (name : String) (a : ToolArgs) (now : Nat) (s : NoteMap) :
    NoteMap × Envelope :=
  match toolSwitch name a now s with
  | (s', .ok p) => (s', { payload := p, isError := false })
  | (s', .error e) => (s', { payload := .text ("Error: " ++ e), isError := true })

/-- ASCII whitespace, the fragment of the JS `trim`/whitespace class the
development needs. -/
def wsChar (c : Char) : Bool :=
  c == ' ' || c == '\n' || c == '\t' || c == '\r'

/-- JS `String.prototype.trim`, char list level: drop whitespace from both
ends. -/
def jsTrim (l : List Char) : List Char :=
  ((l.dropWhile wsChar).reverse.dropWhile wsChar).reverse

/-- JS `new Set(list)` materialised back to a list via `Array.from`: keeps the
first occurrence of each element, in insertion order.  `seen` accumulates
the elements already emitted. -/
def dedupFirst (seen : List String) : List String → List String
  | [] => []
  | t :: rest => if t ∈ seen then dedupFirst seen rest
                 else t :: dedupFirst (t :: seen) rest

/-- JS `Array.from(new Set(l))`. -/
def jsSetList (l : List String) : List String :=
  dedupFirst [] l

/-- JS `Array.prototype.join(", ")`. -/
def joinComma : List String → String
  | [] => ""
  | [t] => t
  | t :: rest => t ++ ", " ++ joinComma rest

/-- The source expression `allNotes.flatMap((note) => note.tags)`. -/
def allTags (s : NoteMap) : List String :=
  (mapValues s).flatMap (·.tags)

/-- The `notes://summary` text (src/index.ts lines 364-374): a template
literal interpolating the total count, the `Set` size and the joined tag
list (`|| 'none'` substitutes "none" when the joined string is empty,
i.e. falsy), then `.trim()`.  The template starts with a newline and ends
with a newline plus the six-space closing indentation. -/
def summaryText (s : NoteMap) : String :=
  let totalNotes := (mapValues s).length
  let tags := jsSetList (allTags s)
  let joined := joinComma tags
  let tagsDisplay := if joined = "" then "none" else joined
  String.mk (jsTrim (
    ("\nNotes Summary\n=============\nTotal notes: " ++ toString totalNotes
      ++ "\nUnique tags: " ++ toString tags.length
      ++ "\nTags: " ++ tagsDisplay ++ "\n      ").toList))

/-- One element of the `contents` array of a ReadResourceRequest response. -/
structure ReadContents where
  uri : String
  mimeType : String
  payload : Payload
deriving DecidableEq, Repr

/-- The ReadResourceRequest handler (src/index.ts lines 349-390).  It has no
try/catch: the `default` case's thrown error propagates out of the handler
(`.error`), surfaced by the SDK as an envelope-level failure. -/
def readResource (uri : String) (s : NoteMap) : Except String ReadContents :=
  if uri = "notes://all" then
    .ok { uri := uri, mimeType := "application/json", payload := .list (mapValues s) }
  else if uri = "notes://summary" then
    .ok { uri := uri, mimeType := "text/plain", payload := .text (summaryText s) }
  else
    .error ("Unknown resource: " ++ uri)

/-- JS `Array.prototype.join("\n")` and friends: join with an arbitrary
separator. -/
def joinSep (sep : String) : List String → String
  | [] => ""
  | [t] => t
  | t :: rest => t ++ sep ++ joinSep sep rest

/-- One role-tagged message of a GetPromptRequest response. -/
structure PromptMessage where
  role : String
  text : String
deriving DecidableEq, Repr

/-- The GetPromptRequest handler (src/index.ts lines 422-473).  Like the
resource handler it has no try/catch, so the unknown-prompt throw is an
envelope-level failure.  `summarize_notes` filters by the truthiness of the
`tag` argument exactly like `list_notes`; note renderings print `undefined`
fields through the template literal. -/
def getPrompt (name : String) (tag : Option String) (s : NoteMap) :
    Except String (List PromptMessage) :=
  if name = "summarize_notes" then
    let filtered := match tag with
      | some t => if t = "" then mapValues s
                  else (mapValues s).filter (fun n => n.tags.contains t)
      | none => mapValues s
    let notesText := joinSep "\n"
      (filtered.map (fun n => "- " ++ jsShow n.title ++ ": " ++ jsShow n.content))
    let tagPart := match tag with
      | some t => if t = "" then "" else " tagged with \"" ++ t ++ "\""
      | none => ""
    .ok [{ role := "user",
           text := "Please summarize the following notes" ++ tagPart
                     ++ ":\n\n" ++ notesText }]
  else if name = "organize_notes" then
    let notesText := joinSep "\n---\n"
      ((mapValues s).map (fun n =>
        "ID: " ++ n.id ++ "\nTitle: " ++ jsShow n.title
          ++ "\nContent: " ++ jsShow n.content
          ++ "\nTags: " ++ joinComma n.tags ++ "\n"))
    .ok [{ role := "user",
           text := "Here are all my notes:\n\n" ++ notesText
                     ++ "\n\nPlease suggest:\n1. Better tags for organization\n2. Notes that could be merged\n3. Missing categories or topics" }]
  else
    .error ("Unknown prompt: " ++ name)

/-- A JS runtime value, as far as the unchecked `create_note` argument casts
can observe one: the distinctions that matter are undefined/null, booleans,
numbers, strings and (string) arrays, because `(x as string[]) || []` only
branches on truthiness and otherwise stores the value as given. -/
inductive JsVal where
  | undef
  | null
  | bool (b : Bool)
  | num (n : Int)
  | str (s : String)
  | arr (l : List String)
deriving DecidableEq, Repr

/-- JS truthiness: `undefined`, `null`, `false`, `0` and `""` are falsy;
every array (including `[]`) is truthy. -/
def jsTruthy : JsVal → Bool
  | .undef => false
  | .null => false
  | .bool b => b
  | .num n => n != 0
  | .str s => s != ""
  | .arr _ => true

/-- A note as `create_note` actually stores it when the argument bag is
arbitrary: `title`, `content` and `tags` hold whatever JS values the casts
let through. -/
structure JsNote where
  id : String
  title : JsVal
  content : JsVal
  tags : JsVal
  createdAt : Nat
  updatedAt : Nat
deriving DecidableEq, Repr

/-- JS `Map.set` for the JsVal-level store. -/
def jsMapSet (k : String) (v : JsNote) : List (String × JsNote) → List (String × JsNote)
  | [] => [(k, v)]
  | (k', v') :: rest => if k' = k then (k, v) :: rest else (k', v') :: jsMapSet k v rest

/-- JS `Map.get` for the JsVal-level store. -/
def jsMapGet (k : String) : List (String × JsNote) → Option JsNote
  | [] => none
  | (k', v) :: rest => if k' = k then some v else jsMapGet k rest

/-- The `create_note` case at full JS generality (src/index.ts lines
184-204): no validation, no possible throw.  `title` and `content` are
stored exactly as given (possibly `undefined`); `tags` is stored as given
when truthy and replaced by `[]` (`|| []`) when falsy; the success text is
returned through the same `.ok` channel as in `toolSwitch`. -/
def create_note_js (title content tags : JsVal) (now : Nat)
    (s : List (String × JsNote)) : List (String × JsNote) × Except String String :=
  let id := toString now
  let note : JsNote :=
    { id := id
      title := title
      content := content
      tags := if jsTruthy tags then tags else .arr []
      createdAt := now
      updatedAt := now }
  (jsMapSet id note s, .ok ("Note created successfully with ID: " ++ id))

/-- Case-insensitive substring test, the search relation of the spec: the
lowercased `q` occurs in the lowercased `s`. -/
def ciSub (q s : String) : Bool :=
  containsSub (lowerList s.toList) (lowerList q.toList)

/-- A tag whose text ends in a non-whitespace character (in particular a
nonempty tag): the hygiene condition under which the summary's final
`.trim()` cannot eat into the tag text. -/
def GoodTag (t : String) : Prop :=
  ∃ m c, t.toList = m ++ [c] ∧ wsChar c = false

/-- The six tool names registered with the ListToolsRequest handler. -/
def toolNames : List String :=
  ["create_note", "list_notes", "get_note", "update_note", "delete_note", "search_notes"]

/-- States whose notes all carry a present (non-`undefined`) title and
content — the states produced by well-formed `create_note` calls. -/
abbrev wfNotes (s : NoteMap) : Prop :=
  ∀ n ∈ mapValues s, n.title.isSome ∧ n.content.isSome

/- ------------------------------------------------------------------ -/
/- Association-list (JS Map) lemmas                                    -/
/- ------------------------------------------------------------------ -/

theorem mapGet_mapSet_self (k : String) (v : Note) (m : NoteMap) :
    mapGet k (mapSet k v m) = some v := by
  induction m with
  | nil => simp [mapGet, mapSet]
  | cons p rest ih =>
    by_cases h : p.1 = k
    · simp [mapGet, mapSet, h]
    · simp [mapGet, mapSet, h, ih]

theorem mapGet_mapSet_ne (k j : String) (v : Note) (m : NoteMap) (h : j ≠ k) :
    mapGet j (mapSet k v m) = mapGet j m := by
  have hkj : ¬(k = j) := fun hh => h (Eq.symm hh)
  induction m with
  | nil => simp [mapGet, mapSet, hkj]
  | cons p rest ih =>
    by_cases hk : p.1 = k
    · have hpj : ¬(p.1 = j) := by rw [hk]; exact hkj
      simp [mapGet, mapSet, hk, hkj, hpj]
    · by_cases hj : p.1 = j
      · simp [mapGet, mapSet, hk, hj, h]
      · simp [mapGet, mapSet, hk, hj, ih]

theorem mapGet_eq_none_of_keys (k : String) (m : NoteMap)
    (h : ∀ p ∈ m, p.1 ≠ k) : mapGet k m = none := by
  induction m with
  | nil => rfl
  | cons p rest ih =>
    simp only [mapGet, if_neg (h p (by simp))]
    exact ih fun q hq => h q (by simp [hq])

theorem mapGet_mapDelete_self (k : String) (m : NoteMap) (h : keysNodup m) :
    mapGet k (mapDelete k m) = none := by
  induction m with
  | nil => rfl
  | cons p rest ih =>
    have hnd : p.1 ∉ rest.map (·.1) ∧ (rest.map (·.1)).Nodup := by
      have := h
      simpa [keysNodup, List.nodup_cons] using this
    by_cases hk : p.1 = k
    · subst hk
      simp only [mapDelete, if_pos rfl]
      refine mapGet_eq_none_of_keys _ _ fun q hq hqk => ?_
      exact hnd.1 (by simpa [hqk] using List.mem_map_of_mem (fun x => x.1) hq)
    · simp only [mapDelete, if_neg hk, mapGet, if_neg hk]
      exact ih hnd.2

theorem mapHas_mapDelete_self (k : String) (m : NoteMap) (h : keysNodup m) :
    mapHas k (mapDelete k m) = false := by
  simp [mapHas, mapGet_mapDelete_self k m h]

/- ------------------------------------------------------------------ -/
/- Substring and search lemmas                                         -/
/- ------------------------------------------------------------------ -/

theorem containsSub_nil (s : List Char) : containsSub s [] = true := by
  cases s with
  | nil => rfl
  | cons a t => simp [containsSub, startsB]

theorem startsB_self (l : List Char) : startsB l l = true := by
  induction l with
  | nil => rfl
  | cons a t ih => simp [startsB, ih]

theorem containsSub_append_self (a b : List Char) : containsSub (a ++ b) b = true := by
  induction a with
  | nil =>
    cases b with
    | nil => rfl
    | cons x t => simp [containsSub, startsB_self]
  | cons x t ih => simp [containsSub, ih]

theorem searchFilter_wf (qc : List Char) (l : List Note)
    (h : ∀ n ∈ l, n.title.isSome ∧ n.content.isSome) :
    searchFilter qc l = .ok (l.filter (fun n =>
      containsSub (lowerList ((n.title.getD "").toList)) qc
        || containsSub (lowerList ((n.content.getD "").toList)) qc)) := by
  induction l with
  | nil => rfl
  | cons n rest ih =>
    obtain ⟨ht, hc⟩ := h n (by simp)
    obtain ⟨t, htt⟩ := Option.isSome_iff_exists.mp ht
    obtain ⟨c, hcc⟩ := Option.isSome_iff_exists.mp hc
    have ihr := ih fun x hx => h x (by simp [hx])
    by_cases hmatch : containsSub (lowerList t.data) qc = true
    · simp [searchFilter, noteMatches, htt, hcc, hmatch, ihr, List.filter_cons]
    · simp [searchFilter, noteMatches, htt, hcc, hmatch, ihr, List.filter_cons]

/- ------------------------------------------------------------------ -/
/- Trim, dedup and join lemmas (for the summary view)                  -/
/- ------------------------------------------------------------------ -/

theorem str_toList_append (a b : String) : (a ++ b).toList = a.toList ++ b.toList := by
  simp [String.toList, String.data_append]

theorem dropWhile_ws_append (x y : List Char) (h : ∀ c ∈ x, wsChar c = true) :
    List.dropWhile wsChar (x ++ y) = List.dropWhile wsChar y := by
  induction x with
  | nil => rfl
  | cons a t ih =>
    simp only [List.cons_append, List.dropWhile_cons, h a (by simp), if_pos]
    exact ih fun c hc => h c (by simp [hc])

theorem trimR_drop (z w : List Char) (c : Char) (hc : wsChar c = false)
    (hw : ∀ x ∈ w, wsChar x = true) :
    (((z ++ [c]) ++ w).reverse.dropWhile wsChar).reverse = z ++ [c] := by
  have h1 : ((z ++ [c]) ++ w).reverse = w.reverse ++ (c :: z.reverse) := by simp
  rw [h1, dropWhile_ws_append w.reverse _ (fun x hx => hw x (List.mem_reverse.mp hx)),
    List.dropWhile_cons, if_neg (by simp [hc])]
  simp

theorem jsTrim_template (x : List Char) (c : Char) (hc : wsChar c = false) :
    jsTrim (("\nNotes Summary\n=============\nTotal notes: ").toList ++ (x ++ [c])
        ++ ("\n      ").toList)
      = ("Notes Summary\n=============\nTotal notes: ").toList ++ (x ++ [c]) := by
  have hfront : ("\nNotes Summary\n=============\nTotal notes: ").toList
      = '\n' :: 'N' :: ("otes Summary\n=============\nTotal notes: ").toList := rfl
  rw [jsTrim, hfront]
  simp only [List.cons_append]
  rw [List.dropWhile_cons, if_pos (by decide), List.dropWhile_cons, if_neg (by decide)]
  have harr : ('N' : Char) ::
      ((("otes Summary\n=============\nTotal notes: ").toList ++ (x ++ [c]))
        ++ ("\n      ").toList)
      = (((('N' :: (("otes Summary\n=============\nTotal notes: ").toList ++ x)) ++ [c]))
          ++ ("\n      ").toList) := by
    simp [List.append_assoc]
  rw [harr, trimR_drop _ _ c hc (by decide)]
  simp [List.append_assoc]

theorem mem_dedupFirst (x : String) (l : List String) :
    ∀ seen, (x ∈ dedupFirst seen l ↔ x ∈ l ∧ x ∉ seen) := by
  induction l with
  | nil => intro seen; simp [dedupFirst]
  | cons t rest ih =>
    intro seen
    by_cases hts : t ∈ seen
    · rw [dedupFirst, if_pos hts, ih seen]
      constructor
      · rintro ⟨hx, hs⟩
        exact ⟨List.mem_cons_of_mem _ hx, hs⟩
      · rintro ⟨hx, hs⟩
        rcases List.mem_cons.mp hx with rfl | hx'
        · exact absurd hts hs
        · exact ⟨hx', hs⟩
    · rw [dedupFirst, if_neg hts]
      constructor
      · intro hx
        rcases List.mem_cons.mp hx with rfl | hx'
        · exact ⟨List.mem_cons_self _ _, hts⟩
        · obtain ⟨h1, h2⟩ := (ih (t :: seen)).mp hx'
          exact ⟨List.mem_cons_of_mem _ h1, fun hs => h2 (List.mem_cons_of_mem _ hs)⟩
      · rintro ⟨hx, hs⟩
        rcases List.mem_cons.mp hx with rfl | hx'
        · exact List.mem_cons_self _ _
        · by_cases hxt : x = t
          · subst hxt
            exact List.mem_cons_self _ _
          · refine List.mem_cons_of_mem _ ((ih (t :: seen)).mpr ⟨hx', fun hmem => ?_⟩)
            rcases List.mem_cons.mp hmem with h | h
            · exact hxt h
            · exact hs h

theorem nodup_dedupFirst (l : List String) : ∀ seen, (dedupFirst seen l).Nodup := by
  induction l with
  | nil => intro seen; simp [dedupFirst]
  | cons t rest ih =>
    intro seen
    by_cases hts : t ∈ seen
    · rw [dedupFirst, if_pos hts]
      exact ih seen
    · rw [dedupFirst, if_neg hts]
      refine List.nodup_cons.mpr ⟨fun hmem => ?_, ih (t :: seen)⟩
      exact ((mem_dedupFirst t rest (t :: seen)).mp hmem).2 (List.mem_cons_self _ _)

theorem dedupFirst_nil_iff (l : List String) : dedupFirst [] l = [] ↔ l = [] := by
  cases l with
  | nil => simp [dedupFirst]
  | cons t rest => simp [dedupFirst]

theorem joinComma_goodTag (l : List String) (hne : l ≠ []) (h : ∀ t ∈ l, GoodTag t) :
    GoodTag (joinComma l) := by
  induction l with
  | nil => exact absurd rfl hne
  | cons t rest ih =>
    cases rest with
    | nil => simpa [joinComma] using h t (by simp)
    | cons u rest2 =>
      obtain ⟨m, c, hmc, hc⟩ := ih (by simp) fun x hx => h x (List.mem_cons_of_mem _ hx)
      refine ⟨(t ++ ", ").toList ++ m, c, ?_, hc⟩
      rw [show joinComma (t :: u :: rest2) = t ++ ", " ++ joinComma (u :: rest2) from rfl,
        str_toList_append, hmc, List.append_assoc]

/-- The summary text, fully reduced: given that the displayed tags string
ends in a non-whitespace character, the surrounding `.trim()` strips exactly
the template's own leading newline and trailing newline-plus-indentation. -/
theorem summaryText_shape (s : NoteMap) (m : List Char) (c : Char) (hc : wsChar c = false)
    (hmc : (if joinComma (jsSetList (allTags s)) = "" then "none"
            else joinComma (jsSetList (allTags s))).toList = m ++ [c]) :
    summaryText s = "Notes Summary\n=============\nTotal notes: "
      ++ toString (mapValues s).length
      ++ "\nUnique tags: " ++ toString (jsSetList (allTags s)).length
      ++ "\nTags: " ++ (if joinComma (jsSetList (allTags s)) = "" then "none"
                        else joinComma (jsSetList (allTags s))) := by
  have hmcd : (if joinComma (jsSetList (allTags s)) = "" then "none"
      else joinComma (jsSetList (allTags s))).data = m ++ [c] := hmc
  have harg : (("\nNotes Summary\n=============\nTotal notes: "
        ++ toString (mapValues s).length
        ++ "\nUnique tags: " ++ toString (jsSetList (allTags s)).length
        ++ "\nTags: " ++ (if joinComma (jsSetList (allTags s)) = "" then "none"
                          else joinComma (jsSetList (allTags s)))
        ++ "\n      ") : String).toList
      = ("\nNotes Summary\n=============\nTotal notes: ").toList
          ++ (((toString (mapValues s).length).toList
                ++ ("\nUnique tags: ").toList
                ++ (toString (jsSetList (allTags s)).length).toList
                ++ ("\nTags: ").toList ++ m) ++ [c])
          ++ ("\n      ").toList := by
    simp [str_toList_append, hmcd, List.append_assoc]
  have htarget : ("Notes Summary\n=============\nTotal notes: "
        ++ toString (mapValues s).length
        ++ "\nUnique tags: " ++ toString (jsSetList (allTags s)).length
        ++ "\nTags: " ++ (if joinComma (jsSetList (allTags s)) = "" then "none"
                          else joinComma (jsSetList (allTags s))) : String).toList
      = ("Notes Summary\n=============\nTotal notes: ").toList
          ++ (((toString (mapValues s).length).toList
                ++ ("\nUnique tags: ").toList
                ++ (toString (jsSetList (allTags s)).length).toList
                ++ ("\nTags: ").toList ++ m) ++ [c]) := by
    simp [str_toList_append, hmcd, List.append_assoc]
  simp only [summaryText]
  rw [harg, jsTrim_template _ c hc, ← htarget]
  rfl

/- ------------------------------------------------------------------ -/
/- Claim theorems                                                      -/
/- ------------------------------------------------------------------ -/

/-- C1: the claim says ids returned by `create_note` are pairwise distinct
and never reused.  The code derives the id from `Date.now()` alone, so two
calls within the same millisecond (`now = 1000` twice) return the identical
id "1000", and the second note silently overwrites the first: after the two
calls the store holds a single note, the second one.  This contradicts the
spec's id-uniqueness invariant (§3, §4.1 "must never collide with a live
id"), so it is a bug in the code. -/
theorem c1_same_millisecond_id_collision :
    (callTool "create_note" { title := some "A", content := some "x" } 1000 []).2.payload
        = .text "Note created successfully with ID: 1000" ∧
    (callTool "create_note" { title := some "B", content := some "y" } 1000
        (callTool "create_note" { title := some "A", content := some "x" } 1000 []).1).2.payload
        = .text "Note created successfully with ID: 1000" ∧
    (mapValues (callTool "create_note" { title := some "B", content := some "y" } 1000
        (callTool "create_note" { title := some "A", content := some "x" } 1000 []).1).1).length
        = 1 ∧
    mapGet "1000" (callTool "create_note" { title := some "B", content := some "y" } 1000
        (callTool "create_note" { title := some "A", content := some "x" } 1000 []).1).1
        = some { id := "1000", title := some "B", content := some "y", tags := [],
                 createdAt := 1000, updatedAt := 1000 } := by
  refine ⟨rfl, rfl, rfl, rfl⟩

/-- C3: `create_note(title, content, tags?)` followed by `get_note` on the
returned id yields a note whose title, content and tags equal the inputs,
with tags defaulting to the empty sequence when the argument was omitted. -/
theorem c3_create_get_round_trip (title content : String) (tags : Option (List String))
    (now later : Nat) (s : NoteMap) :
    (toolSwitch "create_note" { title := some title, content := some content, tags := tags }
        now s).2
      = .ok (.text ("Note created successfully with ID: " ++ toString now)) ∧
    ∃ n : Note,
      (toolSwitch "get_note" { id := some (toString now) } later
          (toolSwitch "create_note" { title := some title, content := some content, tags := tags }
            now s).1).2
        = .ok (.note n) ∧
      n.title = some title ∧ n.content = some content ∧ n.tags = tags.getD [] := by
  constructor
  · simp [toolSwitch]
  · refine ⟨{ id := toString now, title := some title, content := some content,
              tags := tags.getD [], createdAt := now, updatedAt := now }, ?_, rfl, rfl, rfl⟩
    simp [toolSwitch, mapGet_mapSet_self]

/-- C2 counterexample: the claim promises that `update_note(id, {content: X})`
makes the content equal `X` for any string `X`, and that exactly the
supplied (non-absent) fields are overwritten.  The code guards each field
with JS truthiness (`if (args?.content)`), so supplying the empty string —
present but falsy — is silently ignored: the note keeps its old content
"x". -/
theorem c2_empty_string_update_ignored :
    mapGet "1" (toolSwitch "update_note" { id := some "1", content := some "" } 5
        [("1", { id := "1", title := some "T", content := some "x", tags := ["a"],
                 createdAt := 0, updatedAt := 0 })]).1
      = some { id := "1", title := some "T", content := some "x", tags := ["a"],
               createdAt := 0, updatedAt := 5 } ∧
    (some "x" : Option String) ≠ some "" := by
  refine ⟨rfl, by decide⟩

/-- C2 (amended): `update_note` overwrites exactly the fields supplied with
*truthy* values — a `title`/`content` supplied as the empty string is
treated like an absent field, while a supplied `tags` array (truthy even
when empty) always overwrites — leaves every other field and every other
note untouched, and sets `updatedAt` to the invocation instant (hence ≥ the
previous value whenever the clock is monotone). -/
theorem c2_update_overwrites_truthy_fields (s : NoteMap) (i : String) (n : Note)
    (a : ToolArgs) (now : Nat) (hid : a.id = some i) (hget : mapGet i s = some n) :
    (toolSwitch "update_note" a now s).2
      = .ok (.text ("Note " ++ i ++ " updated successfully")) ∧
    mapGet i (toolSwitch "update_note" a now s).1 = some
      { id := n.id
        title := match a.title with
          | some t => if t = "" then n.title else some t
          | none => n.title
        content := match a.content with
          | some c => if c = "" then n.content else some c
          | none => n.content
        tags := match a.tags with
          | some l => l
          | none => n.tags
        createdAt := n.createdAt
        updatedAt := now } ∧
    (∀ j ≠ i, mapGet j (toolSwitch "update_note" a now s).1 = mapGet j s) := by
  have key : toolSwitch "update_note" a now s =
      (mapSet i
        { id := n.id
          title := match a.title with
            | some t => if t = "" then n.title else some t
            | none => n.title
          content := match a.content with
            | some c => if c = "" then n.content else some c
            | none => n.content
          tags := match a.tags with
            | some l => l
            | none => n.tags
          createdAt := n.createdAt
          updatedAt := now } s,
       .ok (.text ("Note " ++ i ++ " updated successfully"))) := by
    cases ht : a.title <;> cases hc : a.content <;> cases hg : a.tags <;>
      simp [toolSwitch, hid, hget, ht, hc, hg] <;> split_ifs <;> simp_all
  refine ⟨by rw [key], by rw [key]; exact mapGet_mapSet_self .., ?_⟩
  intro j hj
  rw [key]
  exact mapGet_mapSet_ne _ _ _ _ hj

/-- C2 witness: a concrete run of the amended theorem — updating only the
content (to a nonempty string) overwrites the content, keeps title and
tags, and stamps `updatedAt` with the invocation instant. -/
theorem c2_update_witness :
    mapGet "1" (toolSwitch "update_note" { id := some "1", content := some "xyz" } 7
        [("1", { id := "1", title := some "T", content := some "x", tags := ["a"],
                 createdAt := 0, updatedAt := 0 })]).1
      = some { id := "1", title := some "T", content := some "xyz", tags := ["a"],
               createdAt := 0, updatedAt := 7 } :=
  (c2_update_overwrites_truthy_fields
    [("1", { id := "1", title := some "T", content := some "x", tags := ["a"],
             createdAt := 0, updatedAt := 0 })]
    "1" _ { id := some "1", content := some "xyz" } 7 rfl rfl).2.1

/-- C4: deleting a stored note succeeds once; afterwards `get_note` on the
same id throws the not-found error, and a second `delete_note` throws the
same not-found error; neither failure changes the store.  The
`keysNodup` hypothesis is the JS `Map` representation invariant (one
binding per key). -/
theorem c4_delete_then_not_found (s : NoteMap) (i : String) (t1 t2 t3 : Nat)
    (hhas : mapHas i s = true) (hnd : keysNodup s) :
    (toolSwitch "delete_note" { id := some i } t1 s).2
      = .ok (.text ("Note " ++ i ++ " deleted successfully")) ∧
    toolSwitch "get_note" { id := some i } t2 (toolSwitch "delete_note" { id := some i } t1 s).1
      = ((toolSwitch "delete_note" { id := some i } t1 s).1,
         .error ("Note with ID " ++ i ++ " not found")) ∧
    toolSwitch "delete_note" { id := some i } t3 (toolSwitch "delete_note" { id := some i } t1 s).1
      = ((toolSwitch "delete_note" { id := some i } t1 s).1,
         .error ("Note with ID " ++ i ++ " not found")) := by
  have hdel : toolSwitch "delete_note" { id := some i } t1 s
      = (mapDelete i s, .ok (.text ("Note " ++ i ++ " deleted successfully"))) := by
    simp [toolSwitch, hhas]
  have hnone : mapGet i (mapDelete i s) = none := mapGet_mapDelete_self i s hnd
  have hhas2 : mapHas i (mapDelete i s) = false := mapHas_mapDelete_self i s hnd
  refine ⟨by rw [hdel], ?_, ?_⟩
  · rw [hdel]
    simp [toolSwitch, hnone, jsShow]
  · rw [hdel]
    simp [toolSwitch, hhas2]

/-- C4 witness: concrete run on a one-note store. -/
theorem c4_delete_witness :
    mapHas "1" [("1", { id := "1", title := some "T", content := some "x", tags := [],
                        createdAt := 0, updatedAt := 0 })] = true ∧
    (toolSwitch "delete_note" { id := some "1" } 1
        [("1", { id := "1", title := some "T", content := some "x", tags := [],
                 createdAt := 0, updatedAt := 0 })]).2
      = .ok (.text ("Note 1 deleted successfully")) := by
  refine ⟨by decide, ?_⟩
  exact (c4_delete_then_not_found
    [("1", { id := "1", title := some "T", content := some "x", tags := [],
             createdAt := 0, updatedAt := 0 })] "1" 1 2 3 (by decide) (by decide)).1

/-- C5 counterexample: the claim quantifies over *every* tag string `T`,
promising exactly the notes whose tag list contains `T`.  For `T = ""`
(falsy in JS) the filter branch is skipped entirely and *all* notes come
back, even though no note's tags contain "". -/
theorem c5_empty_tag_returns_all :
    (toolSwitch "list_notes" { tag := some "" } 0
        [("1", { id := "1", title := some "T", content := some "x", tags := ["work"],
                 createdAt := 0, updatedAt := 0 })]).2
      = .ok (.list [{ id := "1", title := some "T", content := some "x", tags := ["work"],
                      createdAt := 0, updatedAt := 0 }]) ∧
    (mapValues [("1", { id := "1", title := some "T", content := some "x", tags := ["work"],
                        createdAt := 0, updatedAt := 0 })]).filter
        (fun n => n.tags.contains "") = [] := by
  refine ⟨rfl, rfl⟩

/-- C5 (amended): for every *nonempty* tag string `T`, `list_notes(tag=T)`
returns exactly the stored notes whose tag list contains `T` by exact
case-sensitive string equality (the empty sequence when nothing matches,
not an error); with the tag argument absent — or supplied as the falsy
empty string — it returns all notes. -/
theorem c5_tag_filter (t : String) (now : Nat) (s : NoteMap) :
    (t ≠ "" →
      toolSwitch "list_notes" { tag := some t } now s
        = (s, .ok (.list ((mapValues s).filter (fun n => n.tags.contains t)))) ∧
      ∀ n : Note, n ∈ (mapValues s).filter (fun n => n.tags.contains t) ↔
        n ∈ mapValues s ∧ t ∈ n.tags) ∧
    toolSwitch "list_notes" { tag := some "" } now s = (s, .ok (.list (mapValues s))) ∧
    toolSwitch "list_notes" {} now s = (s, .ok (.list (mapValues s))) := by
  refine ⟨fun ht => ⟨by simp [toolSwitch, ht], fun n => ?_⟩, by simp [toolSwitch],
    by simp [toolSwitch]⟩
  simp [List.mem_filter]

/-- C5 witness: concrete run of the amended theorem with `T = "work"` on a
two-note store: only the tagged note comes back. -/
theorem c5_tag_filter_witness :
    ("work" : String) ≠ "" ∧
    toolSwitch "list_notes" { tag := some "work" } 0
        [("1", { id := "1", title := some "T", content := some "x", tags := ["work"],
                 createdAt := 0, updatedAt := 0 }),
         ("2", { id := "2", title := some "U", content := some "y", tags := ["home"],
                 createdAt := 0, updatedAt := 0 })]
      = ([("1", { id := "1", title := some "T", content := some "x", tags := ["work"],
                  createdAt := 0, updatedAt := 0 }),
          ("2", { id := "2", title := some "U", content := some "y", tags := ["home"],
                  createdAt := 0, updatedAt := 0 })],
         .ok (.list [{ id := "1", title := some "T", content := some "x", tags := ["work"],
                       createdAt := 0, updatedAt := 0 }])) := by
  refine ⟨by decide, ?_⟩
  have h := (c5_tag_filter "work" 0
    [("1", { id := "1", title := some "T", content := some "x", tags := ["work"],
             createdAt := 0, updatedAt := 0 }),
     ("2", { id := "2", title := some "U", content := some "y", tags := ["home"],
             createdAt := 0, updatedAt := 0 })]).1 (by decide)
  exact h.1

/-- C10 counterexample: the claim says the argument values are stored as
given.  A supplied but falsy non-array `tags` (here the empty string) is
replaced by the empty array by `(args?.tags as string[]) || []`, so the
stored value differs from the given one (while the call still succeeds). -/
theorem c10_falsy_tags_replaced :
    (create_note_js .undef .undef (.str "") 5 []).2
      = .ok "Note created successfully with ID: 5" ∧
    jsMapGet "5" (create_note_js .undef .undef (.str "") 5 []).1
      = some { id := "5", title := .undef, content := .undef, tags := .arr [],
               createdAt := 5, updatedAt := 5 } ∧
    JsVal.arr [] ≠ JsVal.str "" := by
  refine ⟨rfl, rfl, by decide⟩

/-- JS `Map.get` after `Map.set` of the same key, JsVal-level store. -/
theorem jsMapGet_jsMapSet_self (k : String) (v : JsNote) (m : List (String × JsNote)) :
    jsMapGet k (jsMapSet k v m) = some v := by
  induction m with
  | nil => simp [jsMapGet, jsMapSet]
  | cons p rest ih =>
    by_cases h : p.1 = k
    · simp [jsMapGet, jsMapSet, h]
    · simp [jsMapGet, jsMapSet, h, ih]

/-- C10 (amended): `create_note` never fails, for *any* JS argument bag —
no `InvalidArguments` error exists on this path.  `title` and `content` are
stored exactly as given (including `undefined`); `tags` is stored as given
when truthy (any array, any nonempty string, ...), and replaced by the
empty array when falsy or absent; the success payload names the new id. -/
theorem c10_create_total (title content tags : JsVal) (now : Nat)
    (s : List (String × JsNote)) :
    (create_note_js title content tags now s).2
      = .ok ("Note created successfully with ID: " ++ toString now) ∧
    jsMapGet (toString now) (create_note_js title content tags now s).1
      = some { id := toString now, title := title, content := content,
               tags := if jsTruthy tags then tags else .arr [],
               createdAt := now, updatedAt := now } := by
  refine ⟨rfl, ?_⟩
  exact jsMapGet_jsMapSet_self ..

/-- C9: the tool dispatcher is total — for every name, argument bag and
state, the try/catch (`callTool`) either passes the switch's successful
payload through with `isError := false`, or converts the thrown error
message into the textual `"Error: " ++ msg` payload with `isError := true`;
no invocation escapes as an uncaught fault. -/
theorem c9_dispatcher_total (name : String) (a : ToolArgs) (now : Nat) (s : NoteMap) :
    (∃ p, (toolSwitch name a now s).2 = .ok p ∧
      callTool name a now s = ((toolSwitch name a now s).1,
        { payload := p, isError := false })) ∨
    (∃ e, (toolSwitch name a now s).2 = .error e ∧
      callTool name a now s = ((toolSwitch name a now s).1,
        { payload := .text ("Error: " ++ e), isError := true })) := by
  rcases hres : toolSwitch name a now s with ⟨s', r⟩
  cases r with
  | ok p => exact Or.inl ⟨p, by simp [hres], by simp [callTool, hres]⟩
  | error e => exact Or.inr ⟨e, by simp [hres], by simp [callTool, hres]⟩

/-- C9 witness: a concrete failing execution — `get_note` on the empty
store throws "Note with ID z not found", and the try/catch converts it into
the in-band `isError` envelope. -/
theorem c9_dispatcher_total_witness :
    callTool "get_note" { id := some "z" } 0 []
      = ([], { payload := .text "Error: Note with ID z not found", isError := true }) := by
  rcases c9_dispatcher_total "get_note" { id := some "z" } 0 [] with ⟨p, hp, -⟩ | ⟨e, he, hcall⟩
  · rw [show (toolSwitch "get_note" { id := some "z" } 0 []).2
        = Except.error "Note with ID z not found" from rfl] at hp
    exact absurd hp (by simp)
  · rw [show (toolSwitch "get_note" { id := some "z" } 0 []).2
        = Except.error "Note with ID z not found" from rfl] at he
    have hmsg : e = "Note with ID z not found" := by
      injection he with h
      exact h.symm
    rw [hmsg] at hcall
    exact hcall

/-- C6: `search_notes(query=Q)` returns exactly the stored notes for which
`Q` is a case-insensitive substring of the title or of the content (either
suffices, tags are never consulted), and the empty query matches every
note.  The `wfNotes` hypothesis restricts to stores whose notes carry real
title/content strings (the stores well-formed creations produce). -/
theorem c6_search_correct (q : String) (now : Nat) (s : NoteMap) (hwf : wfNotes s) :
    ∃ res : List Note,
      toolSwitch "search_notes" { query := some q } now s = (s, .ok (.list res)) ∧
      (∀ n : Note, n ∈ res ↔ n ∈ mapValues s ∧
        (ciSub q (n.title.getD "") || ciSub q (n.content.getD "")) = true) ∧
      (q = "" → res = mapValues s) := by
  refine ⟨(mapValues s).filter (fun n =>
      containsSub (lowerList ((n.title.getD "").toList)) (lowerList q.toList)
        || containsSub (lowerList ((n.content.getD "").toList)) (lowerList q.toList)),
    ?_, fun n => ?_, fun hq => ?_⟩
  · have hsf := searchFilter_wf (lowerList q.toList) (mapValues s) hwf
    simp only [String.toList] at hsf
    simp [toolSwitch, hsf]
  · simp [List.mem_filter, ciSub]
  · subst hq
    refine List.filter_eq_self.mpr fun n _ => ?_
    simp [lowerList, containsSub_nil]

/-- C6 witness: a concrete search — the query "TEA" case-insensitively hits
the content of one note and misses the other. -/
theorem c6_search_witness :
    toolSwitch "search_notes" { query := some "TEA" } 0
        [("1", { id := "1", title := some "Drinks", content := some "Green tea",
                 tags := ["tea"], createdAt := 0, updatedAt := 0 }),
         ("2", { id := "2", title := some "Other", content := some "Coffee",
                 tags := [], createdAt := 0, updatedAt := 0 })]
      = ([("1", { id := "1", title := some "Drinks", content := some "Green tea",
                  tags := ["tea"], createdAt := 0, updatedAt := 0 }),
          ("2", { id := "2", title := some "Other", content := some "Coffee",
                  tags := [], createdAt := 0, updatedAt := 0 })],
         .ok (.list [{ id := "1", title := some "Drinks", content := some "Green tea",
                       tags := ["tea"], createdAt := 0, updatedAt := 0 }])) := by
  obtain ⟨res, heq, -, -⟩ := c6_search_correct "TEA" 0
    [("1", { id := "1", title := some "Drinks", content := some "Green tea",
             tags := ["tea"], createdAt := 0, updatedAt := 0 }),
     ("2", { id := "2", title := some "Other", content := some "Coffee",
             tags := [], createdAt := 0, updatedAt := 0 })]
    (by decide)
  have hres : res = [{ id := "1", title := some "Drinks", content := some "Green tea",
                       tags := ["tea"], createdAt := 0, updatedAt := 0 }] := by
    have h2 := heq.symm.trans
      (show toolSwitch "search_notes" { query := some "TEA" } 0
          [("1", { id := "1", title := some "Drinks", content := some "Green tea",
                   tags := ["tea"], createdAt := 0, updatedAt := 0 }),
           ("2", { id := "2", title := some "Other", content := some "Coffee",
                   tags := [], createdAt := 0, updatedAt := 0 })]
        = ([("1", { id := "1", title := some "Drinks", content := some "Green tea",
                    tags := ["tea"], createdAt := 0, updatedAt := 0 }),
            ("2", { id := "2", title := some "Other", content := some "Coffee",
                    tags := [], createdAt := 0, updatedAt := 0 })],
           .ok (.list [{ id := "1", title := some "Drinks", content := some "Green tea",
                         tags := ["tea"], createdAt := 0, updatedAt := 0 }])) from rfl)
    simpa using h2
  rw [← hres]
  exact heq

/-- C8: the error-surfacing split.  An unknown tool name produces a normal
response envelope with `isError := true` whose text carries the requested
name (the throw is caught in-band); an unknown resource URI and an unknown
prompt name escape their handlers as thrown errors (`Except.error`), i.e.
envelope-level failures, never an in-band payload. -/
theorem c8_error_split (name : String) (a : ToolArgs) (now : Nat) (s : NoteMap)
    (uri : String) (pname : String) (ptag : Option String)
    (hn : name ∉ toolNames) (hu : uri ∉ ["notes://all", "notes://summary"])
    (hp : pname ∉ ["summarize_notes", "organize_notes"]) :
    callTool name a now s
      = (s, { payload := .text ("Error: Unknown tool: " ++ name), isError := true }) ∧
    containsSub ("Error: Unknown tool: " ++ name).toList name.toList = true ∧
    readResource uri s = .error ("Unknown resource: " ++ uri) ∧
    getPrompt pname ptag s = .error ("Unknown prompt: " ++ pname) := by
  simp only [toolNames, List.mem_cons, List.mem_singleton, not_or] at hn hu hp
  obtain ⟨h1, h2, h3, h4, h5, h6, -⟩ := hn
  obtain ⟨hu1, hu2, -⟩ := hu
  obtain ⟨hp1, hp2, -⟩ := hp
  refine ⟨?_, ?_, ?_, ?_⟩
  · simp [callTool, toolSwitch, h1, h2, h3, h4, h5, h6]
    rw [show ("Error: Unknown tool: " : String) = "Error: " ++ "Unknown tool: " from rfl,
      String.append_assoc]
  · have : ("Error: Unknown tool: " ++ name).toList
        = ("Error: Unknown tool: ").toList ++ name.toList := by
      simp [String.toList, String.data_append]
    rw [this]
    exact containsSub_append_self ..
  · simp [readResource, hu1, hu2]
  · simp [getPrompt, hp1, hp2]

/-- C8 witness: the spec's own examples — tool "create_notes" (a typo),
resource "notes://bogus", prompt "summarize". -/
theorem c8_error_split_witness :
    callTool "create_notes" {} 0 []
      = ([], { payload := .text "Error: Unknown tool: create_notes", isError := true }) ∧
    readResource "notes://bogus" [] = .error "Unknown resource: notes://bogus" ∧
    getPrompt "summarize" none [] = .error "Unknown prompt: summarize" := by
  obtain ⟨hc, -, hr, hg⟩ := c8_error_split "create_notes" {} 0 [] "notes://bogus"
    "summarize" none (by decide) (by decide) (by decide)
  exact ⟨hc, hr, hg⟩

/-- C7 counterexample: the claim promises the distinct tag values joined by
", ", with "none" only when there are no tags.  A store holding one note
whose single tag is the empty string has one distinct tag value, yet the
summary renders "Tags: none" (the joined string "" is falsy), and still
reports "Unique tags: 1". -/
theorem c7_empty_string_tag_renders_none :
    summaryText [("1", { id := "1", title := some "T", content := some "x", tags := [""],
                         createdAt := 0, updatedAt := 0 })]
      = "Notes Summary\n=============\nTotal notes: 1\nUnique tags: 1\nTags: none" ∧
    jsSetList (allTags [("1", { id := "1", title := some "T", content := some "x",
                                tags := [""], createdAt := 0, updatedAt := 0 })]) = [""] ∧
    ([""] : List String) ≠ [] := by
  refine ⟨rfl, rfl, by decide⟩

/-- C7 (amended): for stores whose tags all end in a non-whitespace
character (`GoodTag` — in particular nonempty, so the final `.trim()`
cannot eat into the tag text and the falsy-join case coincides with
taglessness), the summary view returns the plain-text block reporting the
total note count, the count of distinct tag values (the deduplicated list
is duplicate-free and has the same members as the concatenated tag lists),
and the distinct tag values joined by ", ", rendering "none" exactly when
there are no tags. -/
theorem c7_summary_report (s : NoteMap)
    (hgood : ∀ n ∈ mapValues s, ∀ t ∈ n.tags, GoodTag t) :
    ∃ tagsPart : String,
      readResource "notes://summary" s = .ok
        { uri := "notes://summary", mimeType := "text/plain",
          payload := .text ("Notes Summary\n=============\nTotal notes: "
            ++ toString (mapValues s).length
            ++ "\nUnique tags: " ++ toString (jsSetList (allTags s)).length
            ++ "\nTags: " ++ tagsPart) } ∧
      (jsSetList (allTags s)).Nodup ∧
      (∀ x, x ∈ jsSetList (allTags s) ↔ x ∈ allTags s) ∧
      (allTags s = [] → tagsPart = "none") ∧
      (allTags s ≠ [] → tagsPart = joinComma (jsSetList (allTags s))) := by
  have hmem : ∀ x, x ∈ jsSetList (allTags s) ↔ x ∈ allTags s := by
    intro x
    rw [jsSetList, mem_dedupFirst]
    simp
  have hgood' : ∀ t ∈ jsSetList (allTags s), GoodTag t := by
    intro t ht
    have hat : t ∈ allTags s := (hmem t).mp ht
    obtain ⟨n, hn, htag⟩ := List.mem_flatMap.mp hat
    exact hgood n hn t htag
  refine ⟨if joinComma (jsSetList (allTags s)) = "" then "none"
          else joinComma (jsSetList (allTags s)), ?_, nodup_dedupFirst _ _, hmem, ?_, ?_⟩
  · have hdisp : GoodTag (if joinComma (jsSetList (allTags s)) = "" then "none"
        else joinComma (jsSetList (allTags s))) := by
      by_cases hj : joinComma (jsSetList (allTags s)) = ""
      · rw [if_pos hj]
        exact ⟨['n', 'o', 'n'], 'e', rfl, rfl⟩
      · rw [if_neg hj]
        refine joinComma_goodTag _ (fun hnil => hj (by rw [hnil]; rfl)) hgood'
    obtain ⟨m, c, hmc, hc⟩ := hdisp
    rw [readResource]
    rw [if_neg (by decide), if_pos rfl, summaryText_shape s m c hc hmc]
  · intro hat
    rw [show jsSetList (allTags s) = [] from by rw [hat]; rfl]
    rfl
  · intro hat
    have hne : jsSetList (allTags s) ≠ [] :=
      fun h => hat ((dedupFirst_nil_iff _).mp h)
    obtain ⟨m, c, hmc, -⟩ := joinComma_goodTag _ hne hgood'
    have hj : joinComma (jsSetList (allTags s)) ≠ "" := by
      intro h
      rw [h] at hmc
      exact absurd hmc.symm (by simp)
    rw [if_neg hj]

/-- C7 witness: concrete run of the amended theorem on a two-note store
with tags {"work","work","personal"}: the summary reports 3 total notes, 2
unique tags, and "work, personal". -/
theorem c7_summary_witness :
    readResource "notes://summary"
        [("1", { id := "1", title := some "A", content := some "x", tags := ["work"],
                 createdAt := 0, updatedAt := 0 }),
         ("2", { id := "2", title := some "B", content := some "y", tags := ["work"],
                 createdAt := 0, updatedAt := 0 }),
         ("3", { id := "3", title := some "C", content := some "z", tags := ["personal"],
                 createdAt := 0, updatedAt := 0 })]
      = .ok { uri := "notes://summary", mimeType := "text/plain",
              payload := .text "Notes Summary\n=============\nTotal notes: 3\nUnique tags: 2\nTags: work, personal" } := by
  obtain ⟨tp, hread, -, -, -, hne⟩ := c7_summary_report
    [("1", { id := "1", title := some "A", content := some "x", tags := ["work"],
             createdAt := 0, updatedAt := 0 }),
     ("2", { id := "2", title := some "B", content := some "y", tags := ["work"],
             createdAt := 0, updatedAt := 0 }),
     ("3", { id := "3", title := some "C", content := some "z", tags := ["personal"],
             createdAt := 0, updatedAt := 0 })]
    (by
      intro n hn t ht
      simp [mapValues] at hn
      rcases hn with rfl | rfl | rfl
      · simp at ht
        subst ht
        exact ⟨['w', 'o', 'r'], 'k', rfl, rfl⟩
      · simp at ht
        subst ht
        exact ⟨['w', 'o', 'r'], 'k', rfl, rfl⟩
      · simp at ht
        subst ht
        exact ⟨['p', 'e', 'r', 's', 'o', 'n', 'a'], 'l', rfl, rfl⟩)
  have htp : tp = "work, personal" := (hne (by decide)).trans rfl
  rw [htp] at hread
  exact hread

end NotesServer
